import Mathlib

/-!
Verification development for `apache_beam/ml/inference/pytorch_inference.py`.

The Python module is shallowly embedded below.  Tensors are modelled as a
shape, a per-element byte width (the dtype size), a resident device, flat
integer contents, and an object identity that distinguishes physically
distinct tensor objects with equal contents.  Python exceptions are modelled
with `Except String`; code that cannot raise is modelled with plain values.
Functions of the `torch` library used by the module (`torch.stack`, tensor
iteration, `Tensor.to`, `Tensor.element_size`, `torch.load`) are modelled
from their documented behaviour; `torch.load` and `torch.cuda.is_available`
are environment-dependent and are supplied through a `TorchEnv` record.
-/

/-- Compute device: `torch.device("cpu")` or `torch.device("cuda")`. -/
inductive Device where
  | cpu
  | cuda
deriving DecidableEq

/-- Model of `torch.Tensor`: shape, per-element byte width of the dtype
(`element_size()`), resident device, flat contents in row-major order, and
an object identity `tid` distinguishing distinct tensor objects. -/
structure Tensor where
  shape : List Nat
  elemSize : Nat
  device : Device
  data : List Int
  tid : Nat
deriving DecidableEq

namespace Tensor

/-- Model of `Tensor.element_size()`: the byte width of one element. -/
def element_size (t : Tensor) : Nat := t.elemSize

/-- Model of `Tensor.numel()`: the total number of elements, the product of
the dimensions. -/
def numel (t : Tensor) : Nat := t.shape.prod

/-- Slices of a tensor along its leading dimension: iterating a torch tensor
of shape `n :: s` yields `n` subtensors of shape `s`.  A 0-dimensional
tensor has no slices (iterating it raises, see `tensorIter`). -/
def slices (t : Tensor) : List Tensor :=
  match t.shape with
  | [] => []
  | n :: s => (List.range n).map fun i =>
      { shape := s
        elemSize := t.elemSize
        device := t.device
        data := (t.data.drop (i * s.prod)).take s.prod
        tid := 0 }

/-- Model of `Tensor.to(device)` (`to` is reserved in Lean): a transfer
allocates a fresh tensor object (new object identity) resident on the target
device, with the same shape, dtype and contents. -/
def toDevice (t : Tensor) (device : Device) : Tensor :=
  { t with device := device, tid := t.tid + 1 }

end Tensor

/-- Iterating a torch tensor yields its leading-dimension slices; iterating a
0-dimensional tensor raises a `TypeError`. -/
def tensorIter (t : Tensor) : Except String (List Tensor) :=
  match t.shape with
  | [] => .error "iteration over a 0-d tensor"
  | _ :: _ => .ok t.slices

/-- Error message of `torch.stack` on an empty list. -/
def stackEmptyMsg : String := "stack expects a non-empty TensorList"

/-- Error message of `torch.stack` on tensors that do not agree in shape,
dtype or device. -/
def stackMismatchMsg : String := "stack expects each tensor to be equal size"

/-- Model of `torch.stack`: requires a non-empty list of tensors agreeing in
shape, dtype and device, and returns a fresh tensor with an added leading
batch dimension whose slices are the given tensors. -/
def torchStack (ts : List Tensor) : Except String Tensor :=
  match ts with
  | [] => .error stackEmptyMsg
  | t :: rest =>
    if ∀ u ∈ rest, u.shape = t.shape ∧ u.elemSize = t.elemSize ∧ u.device = t.device then
      .ok { shape := (rest.length + 1) :: t.shape
            elemSize := t.elemSize
            device := t.device
            data := ((t :: rest).map Tensor.data).flatten
            tid := 0 }
    else .error stackMismatchMsg

/-- Embedding of `_convert_to_device` (pytorch_inference.py lines 92-101):
move the tensor to the given device, but only when it is not already
resident there. -/
def _convert_to_device (examples : Tensor) (device : Device) : Tensor :=
  if examples.device ≠ device then examples.toDevice device else examples

/-- Non-batchable extra keyword arguments (`inference_args`); the values are
opaque to the module and modelled as integers. -/
abbrev Args := List (String × Int)

/-- Embedding of `apache_beam.ml.inference.base.PredictionResult`: one input
example paired with its model output and an optional originating-model
identifier.  The first field is called `example` in the source; `example` is
reserved in Lean. -/
structure PredictionResult (I : Type) where
  ex : I
  inference : Tensor
  model_id : Option String
deriving DecidableEq

/-- Modelled from the spec: `utils._convert_to_result` is not under `src/`;
per the spec it pairs "each original input element with its corresponding
slice of the model's output, in input order, attaching the source identifier
to each". -/
def _convert_to_result {I : Type} (batch : List I) (predictions : Tensor)
    (model_id : Option String) : List (PredictionResult I) :=
  (batch.zip predictions.slices).map fun p =>
    { ex := p.1, inference := p.2, model_id := model_id }

/-- Callable aspect of a `torch.nn.Module` taking one batched tensor:
`forward` is the default entry point `model(x, **kwargs)`, and
`methods name` is `getattr(model, name)` applied as `(x, **kwargs)`. -/
structure TorchModule where
  forward : Tensor → Args → Tensor
  methods : String → Tensor → Args → Tensor

/-- A keyed example: a Python dict from input-slot name to tensor, in dict
iteration order. -/
abbrev KeyedExample := List (String × Tensor)

/-- Callable aspect of a `torch.nn.Module` taking named batched tensors:
`forward` is `model(**tensors, **kwargs)` and `methods name` is
`getattr(model, name)` applied as `(**tensors, **kwargs)`. -/
structure KeyedTorchModule where
  forward : List (String × Tensor) → Args → Tensor
  methods : String → List (String × Tensor) → Args → Tensor

/-- Type of plain-tensor inference functions (`TensorInferenceFn` in the
source): batch, model, device, extra kwargs, optional model identifier. -/
abbrev TensorInferenceFn :=
  List Tensor → TorchModule → Device → Args → Option String →
    Except String (List (PredictionResult Tensor))

/-- Type of keyed-tensor inference functions (`KeyedTensorInferenceFn`). -/
abbrev KeyedTensorInferenceFn :=
  List KeyedExample → KeyedTorchModule → Device → Args → Option String →
    Except String (List (PredictionResult KeyedExample))

/-- Embedding of `default_tensor_inference_fn` (lines 104-117): stack the
batch, move it to the device, invoke the model, convert to results. -/
def default_tensor_inference_fn : TensorInferenceFn :=
  fun batch model device inference_args model_id =>
    match torchStack batch with
    | .error e => .error e
    | .ok batched_tensors =>
      let batched_tensors := _convert_to_device batched_tensors device
      let predictions := model.forward batched_tensors inference_args
      .ok (_convert_to_result batch predictions model_id)

/-- Embedding of the `attr_fn` produced by `make_tensor_model_fn`
(lines 120-143): as the default function, but invoking
`getattr(model, model_fn)` instead of the default entry point.  The
method lookup `pred_fn = getattr(model, model_fn)` is unconditional
straight-line code after the stacking. -/
def make_tensor_model_fn (model_fn : String) : TensorInferenceFn :=
  fun batch model device inference_args model_id =>
    match torchStack batch with
    | .error e => .error e
    | .ok batched_tensors =>
      let batched_tensors := _convert_to_device batched_tensors device
      let pred_fn := model.methods model_fn
      .ok (_convert_to_result batch (pred_fn batched_tensors inference_args) model_id)

/-- One step of the defaultdict grouping `key_to_tensor_list[key].append(tensor)`:
append the tensor to the list of key `k`, creating the list at the end on the
first occurrence of `k` (Python dicts preserve insertion order). -/
def addToGroup (acc : List (String × List Tensor)) (k : String) (t : Tensor) :
    List (String × List Tensor) :=
  match acc with
  | [] => [(k, [t])]
  | g :: rest => if g.1 = k then (g.1, g.2 ++ [t]) :: rest else g :: addToGroup rest k t

/-- Grouping loop of the keyed inference functions (lines 278-280): for each
example of the batch in order, for each key-tensor item of the example in
order, append the tensor to that key's list. -/
def keyGroup (batch : List KeyedExample) : List (String × List Tensor) :=
  batch.foldl (fun acc ex => ex.foldl (fun a kv => addToGroup a kv.1 kv.2) acc) []

/-- Stacking loop of the keyed inference functions (lines 281-285): for each
key in grouping order, stack that key's tensors and move the result to the
device; the first stack failure raises out of the loop. -/
def stackGroups (device : Device) :
    List (String × List Tensor) → Except String (List (String × Tensor))
  | [] => .ok []
  | g :: rest =>
    match torchStack g.2 with
    | .error e => .error e
    | .ok bt =>
      match stackGroups device rest with
      | .error e => .error e
      | .ok l => .ok ((g.1, _convert_to_device bt device) :: l)

/-- Embedding of `default_keyed_tensor_inference_fn` (lines 264-288): group
the batch by key, stack and convert each group, invoke the model with the
batched tensors as named arguments, convert to results. -/
def default_keyed_tensor_inference_fn : KeyedTensorInferenceFn :=
  fun batch model device inference_args model_id =>
    let key_to_tensor_list := keyGroup batch
    match stackGroups device key_to_tensor_list with
    | .error e => .error e
    | .ok key_to_batched_tensors =>
      .ok (_convert_to_result batch
        (model.forward key_to_batched_tensors inference_args) model_id)

/-- Message of the `UnboundLocalError` raised by referencing a local variable
that was never assigned. -/
def unboundLocalMsg : String := "UnboundLocalError: pred_fn referenced before assignment"

/-- Embedding of the `attr_fn` produced by `make_keyed_tensor_model_fn`
(lines 291-326).  The assignment `pred_fn = getattr(model, model_fn)` sits
inside the per-key loop (line 322), so after the loop `pred_fn` is bound iff
the loop body ran at least once, i.e. iff the grouping produced at least one
key; otherwise the call `pred_fn(...)` raises `UnboundLocalError`. -/
def make_keyed_tensor_model_fn (model_fn : String) : KeyedTensorInferenceFn :=
  fun batch model device inference_args model_id =>
    let key_to_tensor_list := keyGroup batch
    match stackGroups device key_to_tensor_list with
    | .error e => .error e
    | .ok key_to_batched_tensors =>
      match key_to_tensor_list with
      | [] => .error unboundLocalMsg
      | _ :: _ =>
        let pred_fn := model.methods model_fn
        .ok (_convert_to_result batch
          (pred_fn key_to_batched_tensors inference_args) model_id)

/-- Deserialized weights (`state_dict`); contents opaque to this module. -/
abbrev StateDict := Nat

/-- Environment-dependent behaviour of torch at load time:
`torch.cuda.is_available()` and the outcome of
`torch.load(FileSystems.open(path), map_location=device)` as a function of
the path and the map location. -/
structure TorchEnv where
  cudaAvailable : Bool
  torchLoad : String → Device → Except String StateDict

/-- Observable events of `_load_model`: the warning logged when a GPU was
requested but is unavailable, each `torch.load` call with its map location,
and the warning logged (with the cause) when a GPU load failed and a CPU
retry is about to happen. -/
inductive LoadEvent where
  | warnGpuUnavailable
  | loadAttempt (device : Device)
  | warnGpuLoadFailed (cause : String)
deriving DecidableEq

/-- The model object returned by `_load_model`: constructed from the model
parameters, with the loaded weights applied (`load_state_dict`), moved to a
device (`.to(device)`) and put in evaluation mode (`.eval()`). -/
structure LoadedModel where
  model_params : Args
  weights : StateDict
  device : Device
  evalMode : Bool
deriving DecidableEq

/-- The load attempt of `_load_model` with effective device cpu: the code of
lines 70-89 when the map location is cpu.  A `RuntimeError` of `torch.load`
is re-raised, because the `device == torch.device("cuda")` guard of the
except-branch is false. -/
def _load_model_cpu_attempt (env : TorchEnv) (model_params : Args)
    (state_dict_path : String) : Except String (LoadedModel × Device) × List LoadEvent :=
  match env.torchLoad state_dict_path Device.cpu with
  | .ok sd =>
      (.ok ({ model_params := model_params
              weights := sd
              device := Device.cpu
              evalMode := true },
            Device.cpu),
       [LoadEvent.loadAttempt Device.cpu])
  | .error e => (.error e, [LoadEvent.loadAttempt Device.cpu])

/-- Embedding of `_load_model` (lines 60-89), paired with the list of its
observable events.  If cuda was requested but is unavailable, warn and
substitute cpu.  Then attempt `torch.load` on the effective device; on a
`RuntimeError` while the effective device is cuda, warn with the cause and
retry the entire load with cpu; on a failure while the effective device is
cpu, re-raise.  On success, return the initialized model and the device
actually used.  The recursive call
`return _load_model(model_class, state_dict_path, torch.device("cpu"), ...)`
of line 80 is unfolded here: called with cpu, `_load_model` performs no
device substitution and no further retry, so that call is exactly
`_load_model_cpu_attempt` (the theorem `_load_model_cpu_eq` below checks
this unfolding against the non-recursive cpu path). -/
def _load_model (env : TorchEnv) (model_params : Args) (state_dict_path : String)
    (device : Device) : Except String (LoadedModel × Device) × List LoadEvent :=
  let d := if device = Device.cuda ∧ env.cudaAvailable = false then Device.cpu else device
  let warns :=
    if device = Device.cuda ∧ env.cudaAvailable = false then
      [LoadEvent.warnGpuUnavailable]
    else []
  match env.torchLoad state_dict_path d with
  | .ok sd =>
      (.ok ({ model_params := model_params, weights := sd, device := d, evalMode := true }, d),
       warns ++ [LoadEvent.loadAttempt d])
  | .error e =>
      if d = Device.cuda then
        let r := _load_model_cpu_attempt env model_params state_dict_path
        (r.1, warns ++ [LoadEvent.loadAttempt d, LoadEvent.warnGpuLoadFailed e] ++ r.2)
      else
        (.error e, warns ++ [LoadEvent.loadAttempt d])

/-- Map locations of the `torch.load` calls recorded in an event list, in
order. -/
def loadAttempts (evs : List LoadEvent) : List Device :=
  evs.filterMap fun ev =>
    match ev with
    | .loadAttempt d => some d
    | _ => none

/-- Embedding of the argument normalisation
`inference_args = {} if not inference_args else inference_args` shared by
both `run_inference` methods (`None` and the empty dict are falsy). -/
def normalizeArgs (inference_args : Option Args) : Args :=
  match inference_args with
  | none => []
  | some a => if a = [] then [] else a

/-- State of a `PytorchModelHandlerTensor` instance: the constructor
attributes `_state_dict_path`, `_device`, `_model_params`, `_inference_fn`
and the `_batching_kwargs` entries. -/
structure PytorchModelHandlerTensor where
  state_dict_path : String
  device : Device
  model_params : Args
  inference_fn : TensorInferenceFn
  min_batch_size : Option Nat
  max_batch_size : Option Nat

namespace PytorchModelHandlerTensor

/-- Embedding of `PytorchModelHandlerTensor.__init__` (lines 149-197): the
cuda device is selected exactly when the device argument is the string
`GPU`; any other string selects cpu. -/
def init (state_dict_path : String) (model_params : Args) (device : String)
    (inference_fn : TensorInferenceFn) (min_batch_size max_batch_size : Option Nat) :
    PytorchModelHandlerTensor :=
  { state_dict_path := state_dict_path
    device := if device = "GPU" then Device.cuda else Device.cpu
    model_params := model_params
    inference_fn := inference_fn
    min_batch_size := min_batch_size
    max_batch_size := max_batch_size }

/-- Embedding of `PytorchModelHandlerTensor.load_model` (lines 199-207):
delegate to `_load_model` with the stored path and device, record the device
actually used, and return the model.  On an exception the handler state is
unchanged. -/
def load_model (env : TorchEnv) (self : PytorchModelHandlerTensor) :
    Except String LoadedModel × PytorchModelHandlerTensor × List LoadEvent :=
  match _load_model env self.model_params self.state_dict_path self.device with
  | (.ok (m, d), evs) => (.ok m, { self with device := d }, evs)
  | (.error e, evs) => (.error e, self, evs)

/-- Embedding of `PytorchModelHandlerTensor.run_inference` (lines 212-241):
normalise the extra arguments and delegate to the configured inference
function with the handler's device and path. -/
def run_inference (self : PytorchModelHandlerTensor) (batch : List Tensor)
    (model : TorchModule) (inference_args : Option Args) :
    Except String (List (PredictionResult Tensor)) :=
  self.inference_fn batch model self.device (normalizeArgs inference_args)
    (some self.state_dict_path)

/-- Embedding of `PytorchModelHandlerTensor.get_num_bytes` (lines 243-248):
`sum(el.element_size() for tensor in batch for el in tensor)` — the inner
iteration is over the leading-dimension slices of each tensor. -/
def get_num_bytes : List Tensor → Except String Nat
  | [] => .ok 0
  | t :: rest =>
    match tensorIter t with
    | .error e => .error e
    | .ok els =>
      match get_num_bytes rest with
      | .error e => .error e
      | .ok n => .ok ((els.map Tensor.element_size).sum + n)

end PytorchModelHandlerTensor

/-- State of a `PytorchModelHandlerKeyedTensor` instance. -/
structure PytorchModelHandlerKeyedTensor where
  state_dict_path : String
  device : Device
  model_params : Args
  inference_fn : KeyedTensorInferenceFn
  min_batch_size : Option Nat
  max_batch_size : Option Nat

namespace PytorchModelHandlerKeyedTensor

/-- Embedding of `PytorchModelHandlerKeyedTensor.__init__` (lines 333-385):
identical device selection to the plain handler. -/
def init (state_dict_path : String) (model_params : Args) (device : String)
    (inference_fn : KeyedTensorInferenceFn) (min_batch_size max_batch_size : Option Nat) :
    PytorchModelHandlerKeyedTensor :=
  { state_dict_path := state_dict_path
    device := if device = "GPU" then Device.cuda else Device.cpu
    model_params := model_params
    inference_fn := inference_fn
    min_batch_size := min_batch_size
    max_batch_size := max_batch_size }

/-- Embedding of `PytorchModelHandlerKeyedTensor.run_inference`
(lines 400-429). -/
def run_inference (self : PytorchModelHandlerKeyedTensor) (batch : List KeyedExample)
    (model : KeyedTorchModule) (inference_args : Option Args) :
    Except String (List (PredictionResult KeyedExample)) :=
  self.inference_fn batch model self.device (normalizeArgs inference_args)
    (some self.state_dict_path)

/-- Embedding of `PytorchModelHandlerKeyedTensor.get_num_bytes`
(lines 431-438): `sum(el.element_size() for tensor in batch for el in
tensor.values())` — `el` ranges over the value tensors themselves, so each
value tensor contributes its per-element byte width exactly once. -/
def get_num_bytes (batch : List KeyedExample) : Nat :=
  batch.foldl (fun acc ex => ex.foldl (fun a kv => a + kv.2.element_size) acc) 0

end PytorchModelHandlerKeyedTensor

/-- A 1-dimensional tensor of shape [3] with 4-byte elements, on cpu. -/
def t3a : Tensor :=
  { shape := [3], elemSize := 4, device := Device.cpu, data := [1, 2, 3], tid := 1 }

/-- A second tensor of shape [3] with 4-byte elements, on cpu. -/
def t3b : Tensor :=
  { shape := [3], elemSize := 4, device := Device.cpu, data := [4, 5, 6], tid := 2 }

/-- A 2-dimensional tensor of shape [2, 3] with 4-byte elements. -/
def t23 : Tensor :=
  { shape := [2, 3], elemSize := 4, device := Device.cpu, data := [1, 2, 3, 4, 5, 6], tid := 3 }

/-- A tensor of shape [2] with 4-byte elements. -/
def t2a : Tensor :=
  { shape := [2], elemSize := 4, device := Device.cpu, data := [7, 8], tid := 4 }

/-- A plain module whose default entry point returns its input unchanged. -/
def idModule : TorchModule :=
  { forward := fun x _ => x, methods := fun _ x _ => x }

/-- A keyed module returning a fixed two-slice output tensor. -/
def kModule2 : KeyedTorchModule :=
  { forward := fun _ _ =>
      { shape := [2], elemSize := 4, device := Device.cpu, data := [0, 0], tid := 0 }
    methods := fun _ _ _ =>
      { shape := [2], elemSize := 4, device := Device.cpu, data := [0, 0], tid := 0 } }

/-- A plain handler on cpu with the default inference function and weights
location m.pt. -/
def plainHandler : PytorchModelHandlerTensor :=
  PytorchModelHandlerTensor.init "m.pt" [] "CPU" default_tensor_inference_fn none none

/-- A keyed handler on cpu with the default keyed inference function. -/
def keyedHandler : PytorchModelHandlerKeyedTensor :=
  PytorchModelHandlerKeyedTensor.init "m.pt" [] "CPU" default_keyed_tensor_inference_fn none none

/-- A single-example keyed batch whose value tensor has two elements. -/
def kvBatch1 : List KeyedExample := [[("a", t2a)]]

/-- An environment with an available GPU on which deserialization fails on
cuda and on cpu. -/
def envBothFail : TorchEnv :=
  { cudaAvailable := true
    torchLoad := fun _ d =>
      match d with
      | Device.cuda => .error "gpu deserialization failed"
      | Device.cpu => .error "cpu deserialization failed" }

/-- An environment with an available GPU on which deserialization fails on
cuda but succeeds on cpu. -/
def envGpuFails : TorchEnv :=
  { cudaAvailable := true
    torchLoad := fun _ d =>
      match d with
      | Device.cuda => .error "gpu deserialization failed"
      | Device.cpu => .ok 7 }

/-- A plain handler constructed with the GPU device string. -/
def cudaHandler : PytorchModelHandlerTensor :=
  PytorchModelHandlerTensor.init "m.pt" [] "GPU" default_tensor_inference_fn none none

deriving instance DecidableEq for Except

/-- Called with cpu, `_load_model` is exactly the single cpu attempt: no
device substitution happens and a load failure is re-raised, not retried. -/
theorem _load_model_cpu_eq (env : TorchEnv) (mp : Args) (path : String) :
    _load_model env mp path Device.cpu = _load_model_cpu_attempt env mp path := by
  unfold _load_model _load_model_cpu_attempt
  cases h : env.torchLoad path Device.cpu <;> simp [h]

/-- The slices of a tensor of shape `n :: s` number `n`, and each has the
same element width and device as the tensor. -/
theorem slices_length (t : Tensor) (n : Nat) (s : List Nat) (h : t.shape = n :: s) :
    t.slices.length = n := by
  obtain ⟨sh, es, dv, da, ti⟩ := t
  simp only [Tensor.slices] at *
  subst h
  simp

/-- Summing the element widths over the slices of a tensor of shape
`n :: s` gives `n` times the element width. -/
theorem slices_map_element_size (t : Tensor) (n : Nat) (s : List Nat)
    (h : t.shape = n :: s) :
    (t.slices.map Tensor.element_size).sum = n * t.element_size := by
  obtain ⟨sh, es, dv, da, ti⟩ := t
  simp only [Tensor.slices, Tensor.element_size] at *
  subst h
  simp [List.map_map, Function.comp]
  induction n with
  | zero => simp
  | succ m ih =>
    simp [List.range_succ, ih, Tensor.element_size, Nat.succ_mul]

/-- C8: `_convert_to_device` returns a tensor resident on the target device;
it returns the identical tensor object iff the input is already resident on
the target device, and when the input is not resident there the result is
exactly the freshly transferred copy `examples.to(device)`. -/
theorem C8_convert_to_device (t : Tensor) (d : Device) :
    (_convert_to_device t d).device = d
    ∧ (_convert_to_device t d = t ↔ t.device = d)
    ∧ (t.device ≠ d → _convert_to_device t d = t.toDevice d) := by
  have hdev : (_convert_to_device t d).device = d := by
    by_cases h : t.device = d <;> simp [_convert_to_device, h, Tensor.toDevice]
  refine ⟨hdev, ⟨?_, ?_⟩, ?_⟩
  · intro hres
    rw [← hres]
    exact hdev
  · intro h
    simp [_convert_to_device, h]
  · intro h
    simp [_convert_to_device, h, Tensor.toDevice]

/-- Witness for C8 at a concrete transfer: `t3a` lives on cpu, so converting
it to cuda is the fresh copy. -/
theorem C8_convert_to_device_witness :
    t3a.device ≠ Device.cuda ∧ _convert_to_device t3a Device.cuda = t3a.toDevice Device.cuda :=
  ⟨by decide, (C8_convert_to_device t3a Device.cuda).2.2 (by decide)⟩

/-- C10: in both handler constructors the cuda device is selected iff the
device argument is exactly the string GPU; any other string silently
selects cpu. -/
theorem C10_init_device (path : String) (mp : Args) (dev : String)
    (fn : TensorInferenceFn) (kfn : KeyedTensorInferenceFn) (mn mx : Option Nat) :
    ((PytorchModelHandlerTensor.init path mp dev fn mn mx).device = Device.cuda ↔ dev = "GPU")
    ∧ ((PytorchModelHandlerKeyedTensor.init path mp dev kfn mn mx).device = Device.cuda
        ↔ dev = "GPU")
    ∧ (dev ≠ "GPU" →
        (PytorchModelHandlerTensor.init path mp dev fn mn mx).device = Device.cpu
        ∧ (PytorchModelHandlerKeyedTensor.init path mp dev kfn mn mx).device = Device.cpu) := by
  unfold PytorchModelHandlerTensor.init PytorchModelHandlerKeyedTensor.init
  by_cases h : dev = "GPU" <;> simp [h]

/-- Witness for C10 with the lower-case string cuda: both constructors
select the cpu device. -/
theorem C10_init_device_witness :
    "cuda" ≠ "GPU"
    ∧ ((PytorchModelHandlerTensor.init "m.pt" [] "cuda"
          default_tensor_inference_fn none none).device = Device.cpu
       ∧ (PytorchModelHandlerKeyedTensor.init "m.pt" [] "cuda"
          default_keyed_tensor_inference_fn none none).device = Device.cpu) :=
  ⟨by decide,
   (C10_init_device "m.pt" [] "cuda" default_tensor_inference_fn
      default_keyed_tensor_inference_fn none none).2.2 (by decide)⟩

/-- C3 fails as stated: for the 2-dimensional tensor `t23` of shape [2, 3]
with 4 bytes per element, `get_num_bytes` returns 8, the leading-dimension
length 2 times the element width 4, not 24, the element count 6 times the
element width 4. -/
theorem C3_get_num_bytes_counterexample :
    PytorchModelHandlerTensor.get_num_bytes [t23] = Except.ok 8
    ∧ (([t23].map fun t => t.numel * t.element_size).sum = 24)
    ∧ (Except.ok 8 : Except String Nat) ≠ Except.ok 24 := by decide

/-- C3 amended: for every batch of tensors each with at least one dimension,
`get_num_bytes` returns the sum over the batch of the leading-dimension
length times the per-element byte width (which equals element count times
byte width only for 1-dimensional tensors). -/
theorem C3_get_num_bytes_amended (batch : List Tensor)
    (h : ∀ t ∈ batch, t.shape ≠ []) :
    PytorchModelHandlerTensor.get_num_bytes batch =
      Except.ok ((batch.map fun t => t.shape.headD 0 * t.element_size).sum) := by
  induction batch with
  | nil => rfl
  | cons t rest ih =>
    have ht : t.shape ≠ [] := h t (by simp)
    have hrest : ∀ u ∈ rest, u.shape ≠ [] := fun u hu => h u (by simp [hu])
    match hsh : t.shape with
    | [] => exact absurd hsh ht
    | n :: s =>
      simp only [PytorchModelHandlerTensor.get_num_bytes, tensorIter, hsh, ih hrest,
        slices_map_element_size t n s hsh, List.map_cons, List.sum_cons, hsh]
      simp [hsh]

/-- Witness for C3 amended on a concrete two-tensor 1-dimensional batch. -/
theorem C3_get_num_bytes_amended_witness :
    (∀ t ∈ [t3a, t3b], t.shape ≠ [])
    ∧ PytorchModelHandlerTensor.get_num_bytes [t3a, t3b] =
        Except.ok (([t3a, t3b].map fun t => t.shape.headD 0 * t.element_size).sum) :=
  ⟨by decide, C3_get_num_bytes_amended [t3a, t3b] (by decide)⟩

/-- C4 fails as stated: for the single-example keyed batch `kvBatch1` whose
only value tensor has shape [2] and 4-byte elements, the keyed
`get_num_bytes` returns 4, one per-element byte width for the value tensor,
while flattening the dictionary values and summing their storage sizes gives
8 = 2 * 4. -/
theorem C4_get_num_bytes_counterexample :
    PytorchModelHandlerKeyedTensor.get_num_bytes kvBatch1 = 4
    ∧ (((kvBatch1.map fun ex => ex.map Prod.snd).flatten.map
          fun t => t.numel * t.element_size).sum = 8)
    ∧ (4 : Nat) ≠ 8 := by decide

/-- Folding the byte-width accumulation over one keyed example adds the sum
of the per-element widths of its value tensors. -/
theorem foldl_add_element_size (ex : KeyedExample) (acc : Nat) :
    ex.foldl (fun a kv => a + kv.2.element_size) acc
      = acc + ((ex.map Prod.snd).map Tensor.element_size).sum := by
  induction ex generalizing acc with
  | nil => simp
  | cons kv rest ih => simp [List.foldl_cons, ih, Nat.add_assoc]

/-- Folding the byte-width accumulation over a keyed batch adds the sum of
the per-element widths of all flattened value tensors. -/
theorem foldl_batch_element_size (batch : List KeyedExample) (acc : Nat) :
    batch.foldl (fun acc ex => ex.foldl (fun a kv => a + kv.2.element_size) acc) acc
      = acc + ((batch.map fun ex => ex.map Prod.snd).flatten.map Tensor.element_size).sum := by
  induction batch generalizing acc with
  | nil => simp
  | cons ex rest ih =>
    rw [List.foldl_cons, ih, foldl_add_element_size]
    simp [Nat.add_assoc]

/-- C4 amended: the keyed `get_num_bytes` equals the sum, over all the value
tensors of all the examples (the flattened dictionary values), of each value
tensor's per-element byte width — one width per tensor, not the tensor's
full storage size. -/
theorem C4_get_num_bytes_amended (batch : List KeyedExample) :
    PytorchModelHandlerKeyedTensor.get_num_bytes batch =
      ((batch.map fun ex => ex.map Prod.snd).flatten.map Tensor.element_size).sum := by
  simpa [PytorchModelHandlerKeyedTensor.get_num_bytes] using
    foldl_batch_element_size batch 0

/-- `_convert_to_device` preserves the shape of the tensor. -/
theorem convert_to_device_shape (t : Tensor) (d : Device) :
    (_convert_to_device t d).shape = t.shape := by
  by_cases h : t.device = d <;> simp [_convert_to_device, h, Tensor.toDevice]

/-- `torch.stack` succeeds on a non-empty list of tensors sharing one shape,
element width and device, producing a batched tensor with an added leading
batch dimension. -/
theorem torchStack_ok (ts : List Tensor) (s : List Nat) (e : Nat) (d : Device)
    (hne : ts ≠ [])
    (hall : ∀ u ∈ ts, u.shape = s ∧ u.elemSize = e ∧ u.device = d) :
    ∃ bt, torchStack ts = Except.ok bt
      ∧ bt.shape = ts.length :: s ∧ bt.elemSize = e ∧ bt.device = d := by
  match ts, hne with
  | t :: rest, _ =>
    have ht := hall t (by simp)
    have hcond : ∀ u ∈ rest,
        u.shape = t.shape ∧ u.elemSize = t.elemSize ∧ u.device = t.device := by
      intro u hu
      have hu' := hall u (by simp [hu])
      exact ⟨by rw [hu'.1, ht.1], by rw [hu'.2.1, ht.2.1], by rw [hu'.2.2, ht.2.2]⟩
    refine ⟨{ shape := (rest.length + 1) :: t.shape
              elemSize := t.elemSize
              device := t.device
              data := ((t :: rest).map Tensor.data).flatten
              tid := 0 }, ?_, ?_, ?_, ?_⟩
    · simp only [torchStack]
      rw [if_pos hcond]
    · simp [ht.1]
    · exact ht.2.1
    · exact ht.2.2

/-- The results of `_convert_to_result` number as many as the batch when the
prediction has at least one slice per batch element. -/
theorem convert_to_result_length {I : Type} (batch : List I) (p : Tensor)
    (mid : Option String) (h : batch.length ≤ p.slices.length) :
    (_convert_to_result batch p mid).length = batch.length := by
  simp [_convert_to_result, List.length_zip]
  omega

/-- The inputs recorded by `_convert_to_result`, in order, are exactly the
batch when the prediction has at least one slice per batch element. -/
theorem convert_to_result_map_ex {I : Type} (batch : List I) (p : Tensor)
    (mid : Option String) (h : batch.length ≤ p.slices.length) :
    (_convert_to_result batch p mid).map PredictionResult.ex = batch := by
  have hz := List.map_fst_zip batch p.slices h
  simp only [_convert_to_result, List.map_map]
  simpa [Function.comp] using hz

/-- The outputs recorded by `_convert_to_result`, in order, are exactly the
slices of the prediction when these number at most the batch length. -/
theorem convert_to_result_map_inference {I : Type} (batch : List I) (p : Tensor)
    (mid : Option String) (h : p.slices.length ≤ batch.length) :
    (_convert_to_result batch p mid).map PredictionResult.inference = p.slices := by
  have hz := List.map_snd_zip batch p.slices h
  simp only [_convert_to_result, List.map_map]
  simpa [Function.comp] using hz

/-- Every result of `_convert_to_result` carries the given model id. -/
theorem convert_to_result_model_id {I : Type} (batch : List I) (p : Tensor)
    (mid : Option String) :
    ∀ r ∈ _convert_to_result batch p mid, r.model_id = mid := by
  intro r hr
  simp only [_convert_to_result, List.mem_map] at hr
  obtain ⟨q, _, rfl⟩ := hr
  rfl

/-- C1 fails as stated at N = 0: on the empty batch `torch.stack` raises
(stack expects a non-empty TensorList) and `run_inference` on the plain
handler with the default inference function propagates the error instead of
returning exactly 0 results. -/
theorem C1_run_inference_counterexample :
    plainHandler.run_inference [] idModule none = Except.error stackEmptyMsg
    ∧ plainHandler.run_inference [] idModule none ≠ Except.ok [] := by
  exact ⟨rfl, by decide⟩

/-- C1 amended: for every non-empty batch of N tensors sharing one shape,
element width and device, `run_inference` on the plain handler with the
default inference function and a model whose output yields one slice per
input row returns exactly N results in batch order, pairing the i-th input
with the i-th slice of the model output on the device-converted stacked
batch, each result carrying the handler's weights path. -/
theorem C1_run_inference (self : PytorchModelHandlerTensor) (batch : List Tensor)
    (model : TorchModule) (inference_args : Option Args)
    (s : List Nat) (e : Nat) (d : Device)
    (hfn : self.inference_fn = default_tensor_inference_fn)
    (hne : batch ≠ [])
    (hall : ∀ u ∈ batch, u.shape = s ∧ u.elemSize = e ∧ u.device = d)
    (hm : ∀ x a, (model.forward x a).shape.headD 0 = x.shape.headD 0) :
    ∃ bt res,
      torchStack batch = Except.ok bt
      ∧ self.run_inference batch model inference_args = Except.ok res
      ∧ res = ((batch.zip (model.forward (_convert_to_device bt self.device)
                  (normalizeArgs inference_args)).slices).map fun p =>
            { ex := p.1, inference := p.2, model_id := some self.state_dict_path })
      ∧ res.length = batch.length
      ∧ res.map PredictionResult.ex = batch
      ∧ res.map PredictionResult.inference
          = (model.forward (_convert_to_device bt self.device)
              (normalizeArgs inference_args)).slices
      ∧ ∀ r ∈ res, r.model_id = some self.state_dict_path := by
  obtain ⟨bt, hbt, hbs, hbe, hbd⟩ := torchStack_ok batch s e d hne hall
  have hcs : (_convert_to_device bt self.device).shape = bt.shape :=
    convert_to_device_shape bt self.device
  have hhead : (model.forward (_convert_to_device bt self.device)
      (normalizeArgs inference_args)).shape.headD 0 = batch.length := by
    rw [hm, hcs, hbs]
    rfl
  have hnz : batch.length ≠ 0 := fun h0 => hne (List.length_eq_zero.mp h0)
  obtain ⟨n, s', hos⟩ : ∃ n s', (model.forward (_convert_to_device bt self.device)
      (normalizeArgs inference_args)).shape = n :: s' := by
    cases hsh : (model.forward (_convert_to_device bt self.device)
        (normalizeArgs inference_args)).shape with
    | nil =>
      rw [hsh] at hhead
      exact absurd hhead.symm hnz
    | cons n s' => exact ⟨n, s', rfl⟩
  have hn : n = batch.length := by
    rw [hos] at hhead
    simpa using hhead
  have hsl : (model.forward (_convert_to_device bt self.device)
      (normalizeArgs inference_args)).slices.length = batch.length := by
    rw [slices_length _ n s' hos, hn]
  have hrun : self.run_inference batch model inference_args
      = Except.ok (_convert_to_result batch
          (model.forward (_convert_to_device bt self.device) (normalizeArgs inference_args))
          (some self.state_dict_path)) := by
    rw [PytorchModelHandlerTensor.run_inference, hfn]
    simp only [default_tensor_inference_fn, hbt]
  refine ⟨bt, _convert_to_result batch
      (model.forward (_convert_to_device bt self.device) (normalizeArgs inference_args))
      (some self.state_dict_path), hbt, hrun, rfl, ?_, ?_, ?_, ?_⟩
  · exact convert_to_result_length batch _ _ (le_of_eq hsl.symm)
  · exact convert_to_result_map_ex batch _ _ (le_of_eq hsl.symm)
  · exact convert_to_result_map_inference batch _ _ (le_of_eq hsl)
  · exact convert_to_result_model_id batch _ _

/-- Witness for C1 amended: the spec scenario of two shape-[3] tensors with
the identity model and weights path m.pt. -/
theorem C1_run_inference_witness :
    plainHandler.inference_fn = default_tensor_inference_fn
    ∧ [t3a, t3b] ≠ []
    ∧ (∀ u ∈ [t3a, t3b], u.shape = [3] ∧ u.elemSize = 4 ∧ u.device = Device.cpu)
    ∧ ∃ bt res,
        torchStack [t3a, t3b] = Except.ok bt
        ∧ plainHandler.run_inference [t3a, t3b] idModule none = Except.ok res
        ∧ res = (([t3a, t3b].zip (idModule.forward (_convert_to_device bt plainHandler.device)
                    (normalizeArgs none)).slices).map fun p =>
              { ex := p.1, inference := p.2, model_id := some plainHandler.state_dict_path })
        ∧ res.length = [t3a, t3b].length
        ∧ res.map PredictionResult.ex = [t3a, t3b]
        ∧ res.map PredictionResult.inference
            = (idModule.forward (_convert_to_device bt plainHandler.device)
                (normalizeArgs none)).slices
        ∧ ∀ r ∈ res, r.model_id = some plainHandler.state_dict_path :=
  ⟨rfl, by decide, by decide,
   C1_run_inference plainHandler [t3a, t3b] idModule none [3] 4 Device.cpu rfl
     (by decide) (by decide) (fun x a => rfl)⟩

/-- `addToGroup` preserves the grouping invariant: every group list is
non-empty and all its tensors satisfy `P`, provided the inserted tensor
does. -/
theorem addToGroup_inv (P : Tensor → Prop) (k : String) (t : Tensor) (ht : P t) :
    ∀ (acc : List (String × List Tensor)),
      (∀ g ∈ acc, g.2 ≠ [] ∧ ∀ u ∈ g.2, P u) →
      ∀ g ∈ addToGroup acc k t, g.2 ≠ [] ∧ ∀ u ∈ g.2, P u
  | [], _ => by
    intro g hg
    simp only [addToGroup, List.mem_singleton] at hg
    subst hg
    refine ⟨by simp, ?_⟩
    intro u hu
    simp only [List.mem_singleton] at hu
    subst hu
    exact ht
  | g0 :: rest, hacc => by
    intro g hg
    simp only [addToGroup] at hg
    by_cases hk : g0.1 = k
    · rw [if_pos hk] at hg
      rcases List.mem_cons.mp hg with hg | hg
      · subst hg
        refine ⟨by simp, ?_⟩
        intro u hu
        rcases List.mem_append.mp hu with hu | hu
        · exact (hacc g0 (by simp)).2 u hu
        · simp only [List.mem_singleton] at hu
          subst hu
          exact ht
      · exact hacc g (by simp [hg])
    · rw [if_neg hk] at hg
      rcases List.mem_cons.mp hg with hg | hg
      · subst hg
        exact hacc _ (by simp)
      · exact addToGroup_inv P k t ht rest (fun g' hg' => hacc g' (by simp [hg'])) g hg

/-- Folding the grouping step over one keyed example preserves the grouping
invariant, provided all its value tensors satisfy `P`. -/
theorem foldl_addToGroup_inv (P : Tensor → Prop) :
    ∀ (ex : KeyedExample) (acc : List (String × List Tensor)),
      (∀ g ∈ acc, g.2 ≠ [] ∧ ∀ u ∈ g.2, P u) →
      (∀ kv ∈ ex, P kv.2) →
      ∀ g ∈ ex.foldl (fun a kv => addToGroup a kv.1 kv.2) acc, g.2 ≠ [] ∧ ∀ u ∈ g.2, P u
  | [], acc, hacc, _ => by simpa using hacc
  | kv :: rest, acc, hacc, hex => by
    rw [List.foldl_cons]
    exact foldl_addToGroup_inv P rest _
      (addToGroup_inv P kv.1 kv.2 (hex kv (by simp)) acc hacc)
      (fun kv' h => hex kv' (by simp [h]))

/-- Folding the grouping over a batch preserves the grouping invariant. -/
theorem keyGroup_go_inv (P : Tensor → Prop) :
    ∀ (batch : List KeyedExample) (acc : List (String × List Tensor)),
      (∀ ex ∈ batch, ∀ kv ∈ ex, P kv.2) →
      (∀ g ∈ acc, g.2 ≠ [] ∧ ∀ u ∈ g.2, P u) →
      ∀ g ∈ batch.foldl (fun acc ex => ex.foldl (fun a kv => addToGroup a kv.1 kv.2) acc) acc,
        g.2 ≠ [] ∧ ∀ u ∈ g.2, P u
  | [], acc, _, hacc => by simpa using hacc
  | ex :: rest, acc, hb, hacc => by
    rw [List.foldl_cons]
    exact keyGroup_go_inv P rest _ (fun e he kv hkv => hb e (by simp [he]) kv hkv)
      (foldl_addToGroup_inv P ex acc hacc (fun kv hkv => hb ex (by simp) kv hkv))

/-- Every group produced by `keyGroup` is non-empty and consists of value
tensors of the batch. -/
theorem keyGroup_inv (P : Tensor → Prop) (batch : List KeyedExample)
    (hb : ∀ ex ∈ batch, ∀ kv ∈ ex, P kv.2) :
    ∀ g ∈ keyGroup batch, g.2 ≠ [] ∧ ∀ u ∈ g.2, P u := by
  simpa [keyGroup] using keyGroup_go_inv P batch [] hb (by simp)

/-- The per-key stacking loop succeeds on every grouping whose lists are
non-empty and homogeneous in shape, element width and device. -/
theorem stackGroups_ok (device : Device) (groups : List (String × List Tensor))
    (s : List Nat) (e : Nat) (d : Device)
    (hinv : ∀ g ∈ groups,
      g.2 ≠ [] ∧ ∀ u ∈ g.2, u.shape = s ∧ u.elemSize = e ∧ u.device = d) :
    ∃ l, stackGroups device groups = Except.ok l := by
  induction groups with
  | nil => exact ⟨[], rfl⟩
  | cons g rest ih =>
    obtain ⟨hne, hall⟩ := hinv g (by simp)
    obtain ⟨bt, hbt, _, _, _⟩ := torchStack_ok g.2 s e d hne hall
    obtain ⟨l, hl⟩ := ih (fun g' hg' => hinv g' (by simp [hg']))
    refine ⟨(g.1, _convert_to_device bt device) :: l, ?_⟩
    simp only [stackGroups, hbt, hl]

/-- C2 fails as stated: the two-example batch with the identical key set
for key a but value tensors of different shapes ([2] and [3]) makes the
per-key stacking raise, and `run_inference` on the keyed handler propagates
the error instead of returning two results. -/
theorem C2_run_inference_counterexample :
    keyedHandler.run_inference [[("a", t2a)], [("a", t3a)]] kModule2 none
      = Except.error stackMismatchMsg := by
  rfl

/-- C2 amended: for every keyed batch in which every example has the same
key sequence and all value tensors share one shape, element width and
device, and for a model yielding at least one output slice per batch
element, `run_inference` on the keyed handler with the default keyed
inference function returns exactly N results in batch order, each carrying
the handler's weights location as its source identifier. -/
theorem C2_run_inference (self : PytorchModelHandlerKeyedTensor)
    (batch : List KeyedExample) (model : KeyedTorchModule)
    (inference_args : Option Args) (ks : List String) (s : List Nat) (e : Nat) (d : Device)
    (hfn : self.inference_fn = default_keyed_tensor_inference_fn)
    (_hkeys : ∀ ex ∈ batch, ex.map Prod.fst = ks)
    (hall : ∀ ex ∈ batch, ∀ kv ∈ ex, kv.2.shape = s ∧ kv.2.elemSize = e ∧ kv.2.device = d)
    (hm : ∀ kts a, batch.length ≤ (model.forward kts a).slices.length) :
    ∃ res, self.run_inference batch model inference_args = Except.ok res
      ∧ res.length = batch.length
      ∧ res.map PredictionResult.ex = batch
      ∧ ∀ r ∈ res, r.model_id = some self.state_dict_path := by
  have hinv := keyGroup_inv (fun u => u.shape = s ∧ u.elemSize = e ∧ u.device = d) batch hall
  obtain ⟨kts, hkts⟩ := stackGroups_ok self.device (keyGroup batch) s e d hinv
  have hrun : self.run_inference batch model inference_args
      = Except.ok (_convert_to_result batch
          (model.forward kts (normalizeArgs inference_args)) (some self.state_dict_path)) := by
    rw [PytorchModelHandlerKeyedTensor.run_inference, hfn]
    simp only [default_keyed_tensor_inference_fn, hkts]
  have hsl := hm kts (normalizeArgs inference_args)
  exact ⟨_, hrun, convert_to_result_length batch _ _ hsl,
    convert_to_result_map_ex batch _ _ hsl, convert_to_result_model_id batch _ _⟩

/-- Witness for C2 amended: two examples with key a and shape-[3] tensors,
under a model returning a two-slice output. -/
theorem C2_run_inference_witness :
    keyedHandler.inference_fn = default_keyed_tensor_inference_fn
    ∧ (∀ ex ∈ [[("a", t3a)], [("a", t3b)]], ex.map Prod.fst = ["a"])
    ∧ (∀ ex ∈ [[("a", t3a)], [("a", t3b)]], ∀ kv ∈ ex,
        kv.2.shape = [3] ∧ kv.2.elemSize = 4 ∧ kv.2.device = Device.cpu)
    ∧ ∃ res, keyedHandler.run_inference [[("a", t3a)], [("a", t3b)]] kModule2 none
          = Except.ok res
        ∧ res.length = [[("a", t3a)], [("a", t3b)]].length
        ∧ res.map PredictionResult.ex = [[("a", t3a)], [("a", t3b)]]
        ∧ ∀ r ∈ res, r.model_id = some keyedHandler.state_dict_path :=
  ⟨rfl, by decide, by decide,
   C2_run_inference keyedHandler [[("a", t3a)], [("a", t3b)]] kModule2 none
     ["a"] [3] 4 Device.cpu rfl (by decide) (by decide)
     (fun kts a => by simp [kModule2, Tensor.slices])⟩

/-- C7 fails as stated: in the batch whose first example has keys a and b
while the second example only has key a, the per-key stacking succeeds (the
group of b is just shorter), the model IS invoked, and `run_inference`
returns results instead of failing with a fatal error at the stacking
step. -/
theorem C7_missing_key_counterexample :
    keyedHandler.run_inference [[("a", t3a), ("b", t3b)], [("a", t3a)]] kModule2 none
      = Except.ok
          [{ ex := [("a", t3a), ("b", t3b)]
             inference := { shape := [], elemSize := 4, device := Device.cpu
                            data := [0], tid := 0 }
             model_id := some "m.pt" },
           { ex := [("a", t3a)]
             inference := { shape := [], elemSize := 4, device := Device.cpu
                            data := [0], tid := 0 }
             model_id := some "m.pt" }] := by
  rfl

/-- C7 amended: for every keyed batch whose value tensors all share one
shape, element width and device, even when some key is present in one
example and missing from another, the per-key stacking succeeds and
`run_inference` with the default keyed inference function returns the
result of invoking the model on the per-key batched tensors (of uneven
leading dimensions); any failure can only arise from the model invocation,
not from the stacking step. -/
theorem C7_missing_key (self : PytorchModelHandlerKeyedTensor)
    (batch : List KeyedExample) (model : KeyedTorchModule) (inference_args : Option Args)
    (s : List Nat) (e : Nat) (d : Device)
    (hfn : self.inference_fn = default_keyed_tensor_inference_fn)
    (hall : ∀ ex ∈ batch, ∀ kv ∈ ex, kv.2.shape = s ∧ kv.2.elemSize = e ∧ kv.2.device = d)
    (_hmiss : ∃ k ex1 ex2, ex1 ∈ batch ∧ ex2 ∈ batch
      ∧ k ∈ ex1.map Prod.fst ∧ k ∉ ex2.map Prod.fst) :
    ∃ kts, stackGroups self.device (keyGroup batch) = Except.ok kts
      ∧ self.run_inference batch model inference_args
          = Except.ok (_convert_to_result batch
              (model.forward kts (normalizeArgs inference_args))
              (some self.state_dict_path)) := by
  obtain ⟨kts, hkts⟩ := stackGroups_ok self.device (keyGroup batch) s e d
    (keyGroup_inv (fun u => u.shape = s ∧ u.elemSize = e ∧ u.device = d) batch hall)
  refine ⟨kts, hkts, ?_⟩
  rw [PytorchModelHandlerKeyedTensor.run_inference, hfn]
  simp only [default_keyed_tensor_inference_fn, hkts]

/-- Witness for C7 amended at the concrete batch missing key b in its second
example. -/
theorem C7_missing_key_witness :
    keyedHandler.inference_fn = default_keyed_tensor_inference_fn
    ∧ (∀ ex ∈ [[("a", t3a), ("b", t3b)], [("a", t3a)]], ∀ kv ∈ ex,
        kv.2.shape = [3] ∧ kv.2.elemSize = 4 ∧ kv.2.device = Device.cpu)
    ∧ (∃ k ex1 ex2, ex1 ∈ [[("a", t3a), ("b", t3b)], [("a", t3a)]]
        ∧ ex2 ∈ [[("a", t3a), ("b", t3b)], [("a", t3a)]]
        ∧ k ∈ ex1.map Prod.fst ∧ k ∉ ex2.map Prod.fst)
    ∧ ∃ kts, stackGroups keyedHandler.device
          (keyGroup [[("a", t3a), ("b", t3b)], [("a", t3a)]]) = Except.ok kts
        ∧ keyedHandler.run_inference [[("a", t3a), ("b", t3b)], [("a", t3a)]] kModule2 none
            = Except.ok (_convert_to_result [[("a", t3a), ("b", t3b)], [("a", t3a)]]
                (kModule2.forward kts (normalizeArgs none))
                (some keyedHandler.state_dict_path)) :=
  ⟨rfl, by decide,
   ⟨"b", [("a", t3a), ("b", t3b)], [("a", t3a)], by decide, by decide, by decide, by decide⟩,
   C7_missing_key keyedHandler [[("a", t3a), ("b", t3b)], [("a", t3a)]] kModule2 none
     [3] 4 Device.cpu rfl (by decide)
     ⟨"b", [("a", t3a), ("b", t3b)], [("a", t3a)], by decide, by decide, by decide, by decide⟩⟩

/-- C9: applying the keyed named-method inference function to the empty
batch reaches the call of `pred_fn` without the per-key loop ever having
assigned it — an unbound-variable error — while the plain named-method
variant, whose method lookup is unconditional, fails on the empty batch
only at the empty-stack step. -/
theorem C9_empty_batch_unbound (model_fn : String) (km : KeyedTorchModule)
    (m : TorchModule) (device : Device) (inference_args : Args)
    (model_id : Option String) :
    make_keyed_tensor_model_fn model_fn [] km device inference_args model_id
        = Except.error unboundLocalMsg
    ∧ make_tensor_model_fn model_fn [] m device inference_args model_id
        = Except.error stackEmptyMsg :=
  ⟨rfl, rfl⟩

/-- C5: with cuda available, a RuntimeError from `torch.load` while
targeting cuda logs the cause and triggers exactly one retry of the entire
load forced to cpu; a deserialization failure while targeting cpu — whether
on that retry or on a first attempt that already targets cpu — propagates
unmodified with no further attempt. -/
theorem C5_load_retry (env : TorchEnv) (mp : Args) (path : String) (e : String)
    (havail : env.cudaAvailable = true)
    (hg : env.torchLoad path Device.cuda = Except.error e) :
    (loadAttempts (_load_model env mp path Device.cuda).2 = [Device.cuda, Device.cpu]
      ∧ LoadEvent.warnGpuLoadFailed e ∈ (_load_model env mp path Device.cuda).2)
    ∧ (∀ e2, env.torchLoad path Device.cpu = Except.error e2 →
        (_load_model env mp path Device.cuda).1 = Except.error e2)
    ∧ (∀ (envc : TorchEnv) (mpc : Args) (pathc : String) (e3 : String),
        envc.torchLoad pathc Device.cpu = Except.error e3 →
        (_load_model envc mpc pathc Device.cpu).1 = Except.error e3
        ∧ loadAttempts (_load_model envc mpc pathc Device.cpu).2 = [Device.cpu]) := by
  have hmain : _load_model env mp path Device.cuda
      = ((_load_model_cpu_attempt env mp path).1,
         [LoadEvent.loadAttempt Device.cuda, LoadEvent.warnGpuLoadFailed e]
           ++ (_load_model_cpu_attempt env mp path).2) := by
    simp [_load_model, havail, hg]
  refine ⟨⟨?_, ?_⟩, ?_, ?_⟩
  · rw [hmain]
    cases hc : env.torchLoad path Device.cpu <;>
      simp [_load_model_cpu_attempt, hc, loadAttempts]
  · rw [hmain]
    simp
  · intro e2 h2
    rw [hmain]
    simp [_load_model_cpu_attempt, h2]
  · intro envc mpc pathc e3 h3
    rw [_load_model_cpu_eq]
    exact ⟨by simp [_load_model_cpu_attempt, h3],
      by simp [_load_model_cpu_attempt, h3, loadAttempts]⟩

/-- Witness for C5 at the environment whose loads fail on both devices. -/
theorem C5_load_retry_witness :
    envBothFail.cudaAvailable = true
    ∧ envBothFail.torchLoad "m.pt" Device.cuda = Except.error "gpu deserialization failed"
    ∧ loadAttempts (_load_model envBothFail [] "m.pt" Device.cuda).2
        = [Device.cuda, Device.cpu]
    ∧ LoadEvent.warnGpuLoadFailed "gpu deserialization failed"
        ∈ (_load_model envBothFail [] "m.pt" Device.cuda).2
    ∧ (_load_model envBothFail [] "m.pt" Device.cuda).1
        = Except.error "cpu deserialization failed"
    ∧ (_load_model envBothFail [] "m.pt" Device.cpu).1
        = Except.error "cpu deserialization failed"
    ∧ loadAttempts (_load_model envBothFail [] "m.pt" Device.cpu).2 = [Device.cpu] := by
  have h := C5_load_retry envBothFail [] "m.pt" "gpu deserialization failed" rfl rfl
  exact ⟨rfl, rfl, h.1.1, h.1.2, h.2.1 "cpu deserialization failed" rfl,
    (h.2.2 envBothFail [] "m.pt" "cpu deserialization failed" rfl).1,
    (h.2.2 envBothFail [] "m.pt" "cpu deserialization failed" rfl).2⟩

/-- A successful `_load_model` reports the cpu device unless cuda was
requested, cuda was available, and the cuda load succeeded. -/
theorem _load_model_ok_device (env : TorchEnv) (mp : Args) (path : String) :
    ∀ (device : Device) (m : LoadedModel) (d : Device) (evs : List LoadEvent),
      _load_model env mp path device = (Except.ok (m, d), evs) →
      d = Device.cpu
      ∨ (device = Device.cuda ∧ env.cudaAvailable = true
          ∧ ∃ sd, env.torchLoad path Device.cuda = Except.ok sd) := by
  intro device m d evs h
  cases device with
  | cpu =>
    rw [_load_model_cpu_eq] at h
    left
    unfold _load_model_cpu_attempt at h
    cases hc : env.torchLoad path Device.cpu <;> rw [hc] at h <;> simp_all
  | cuda =>
    cases hav : env.cudaAvailable with
    | false =>
      left
      simp only [_load_model, hav] at h
      simp at h
      cases hc : env.torchLoad path Device.cpu <;> rw [hc] at h <;> simp_all
    | true =>
      cases hc : env.torchLoad path Device.cuda with
      | ok sd => exact Or.inr ⟨rfl, rfl, sd, rfl⟩
      | error e =>
        left
        simp only [_load_model, hav, hc] at h
        simp at h
        unfold _load_model_cpu_attempt at h
        cases hcp : env.torchLoad path Device.cpu <;> rw [hcp] at h <;> simp_all

/-- C6: if the handler's device is cuda and either cuda is unavailable or
the cuda load fails, then a `load_model` call that completes records the cpu
device on the handler; and once the handler's device is cpu, every
subsequent `load_model` call targets only cpu and leaves the recorded device
at cpu — the device is never re-promoted to cuda. -/
theorem C6_fallback_sticky (env : TorchEnv) (self : PytorchModelHandlerTensor) :
    (self.device = Device.cuda →
      (env.cudaAvailable = false
        ∨ ∃ e, env.torchLoad self.state_dict_path Device.cuda = Except.error e) →
      ∀ m st evs, self.load_model env = (Except.ok m, st, evs) → st.device = Device.cpu)
    ∧ (self.device = Device.cpu →
        ∀ r st evs, self.load_model env = (r, st, evs) →
          st.device = Device.cpu ∧ loadAttempts evs = [Device.cpu]) := by
  constructor
  · intro hdev hfb m st evs heq
    rw [PytorchModelHandlerTensor.load_model] at heq
    rcases hlm : _load_model env self.model_params self.state_dict_path self.device
      with ⟨r, evs2⟩
    rw [hlm] at heq
    cases r with
    | ok md =>
      obtain ⟨mm, dd⟩ := md
      simp only at heq
      have hst : st = { self with device := dd } := by
        have := congrArg (fun p => p.2.1) heq
        simpa using this.symm
      have hdisj := _load_model_ok_device env self.model_params self.state_dict_path
        self.device mm dd evs2 hlm
      rcases hdisj with hcpu | ⟨_, hav, sd, hok⟩
      · rw [hst, hcpu]
      · rcases hfb with hba | ⟨e, he⟩
        · rw [hav] at hba
          exact absurd hba (by simp)
        · rw [hok] at he
          exact absurd he (by simp)
    | error e =>
      simp only at heq
      exact absurd (congrArg (fun p => p.1) heq) (by simp)
  · intro hdev r st evs heq
    rw [PytorchModelHandlerTensor.load_model, hdev, _load_model_cpu_eq] at heq
    unfold _load_model_cpu_attempt at heq
    cases hc : env.torchLoad self.state_dict_path Device.cpu <;> rw [hc] at heq
    · simp only at heq
      have hst : st = self := by
        have := congrArg (fun p => p.2.1) heq
        simpa using this.symm
      have hevs : evs = [LoadEvent.loadAttempt Device.cpu] := by
        have := congrArg (fun p => p.2.2) heq
        simpa using this.symm
      rw [hst, hevs]
      exact ⟨hdev, rfl⟩
    · simp only at heq
      have hst : st = { self with device := Device.cpu } := by
        have := congrArg (fun p => p.2.1) heq
        simpa using this.symm
      have hevs : evs = [LoadEvent.loadAttempt Device.cpu] := by
        have := congrArg (fun p => p.2.2) heq
        simpa using this.symm
      rw [hst, hevs]
      exact ⟨rfl, rfl⟩

/-- Witness for C6: the GPU handler under the environment whose cuda load
fails ends on cpu, and a cpu handler stays on cpu with only cpu
attempts. -/
theorem C6_fallback_sticky_witness :
    cudaHandler.device = Device.cuda
    ∧ (envGpuFails.cudaAvailable = false
        ∨ ∃ e, envGpuFails.torchLoad cudaHandler.state_dict_path Device.cuda
            = Except.error e)
    ∧ (cudaHandler.load_model envGpuFails).2.1.device = Device.cpu
    ∧ plainHandler.device = Device.cpu
    ∧ (plainHandler.load_model envGpuFails).2.1.device = Device.cpu
    ∧ loadAttempts (plainHandler.load_model envGpuFails).2.2 = [Device.cpu] :=
  ⟨rfl, Or.inr ⟨"gpu deserialization failed", rfl⟩,
   (C6_fallback_sticky envGpuFails cudaHandler).1 rfl
     (Or.inr ⟨"gpu deserialization failed", rfl⟩) _ _ _ rfl,
   rfl,
   ((C6_fallback_sticky envGpuFails plainHandler).2 rfl _ _ _ rfl).1,
   ((C6_fallback_sticky envGpuFails plainHandler).2 rfl _ _ _ rfl).2⟩
